import Mathlib

/-!
# Verification of the ngx-state reactive state containers

Shallow embedding of the four state containers of the repository
(`State`, `ArrayState`, `KeyValueState`, `KeyValuesState`) and of the
RxJS operator pipelines their subscription variants build
(`filter`, `distinctUntilChanged`, `map`, replay of the current value
on subscription to a `BehaviorSubject`).

Modelling conventions:
* JavaScript `null`/`undefined` is `Option.none`; a scalar value `T` is
  `Option Int`.
* Delivery is synchronous: each mutator both updates the container state
  and produces the emissions the underlying `BehaviorSubject.next` call
  broadcasts.  An emission carries the value together with the
  `bypassChangeDetection` flag as it stands at delivery time, because the
  `filter` closures read `this.bypassChangeDetection` when the emission is
  delivered.
* A subscription made while the container holds state `st` first receives
  the replay emission of the current value (`BehaviorSubject` semantics),
  then the emissions of subsequent mutations.  Pipelines are modelled as
  functions from the emission list to a list of `Option` deliveries, one
  entry per emission (`some v` = the observer callback was invoked with
  `v`, `none` = the emission was filtered out).
* JavaScript object/array identity (`===` on non-primitives) is modelled
  with an explicit reference counter: a state carries the `ref` of the
  object currently held by the subject and a `fresh` counter for newly
  allocated objects; an in-place mutation keeps the `ref`, a freshly built
  object takes `fresh`.
-/

/-- Helper `isNullOrUndefined` from `type.helper`: true exactly on `null`/`undefined`,
here `Option.isNone`. -/
def isNullOrUndefined (v : Option Int) : Bool :=
  v.isNone

namespace StateM

/-- The `State<T>` container: the current value of the `BehaviorSubject`
(`none` models `null`) and the shared `bypassChangeDetection` flag from
`BaseState`. -/
structure State where
  cur : Option Int
  flag : Bool
deriving DecidableEq, Repr

/-- An emission of the subject: the value passed to `next`, paired with the
`bypassChangeDetection` flag as the filter of the subscriber reads it at delivery
time. -/
abbrev Emis := Option Int × Bool

/-- Constructor `new State(initialValue?)`: the subject starts at `initialValue ?? null`,
the flag at `false`. -/
def State.init (initialValue : Option Int) : State :=
  { cur := initialValue, flag := false }

/-- Method `State.set(value, bypassChangeDetection = false)`: store the flag, `next`
the value.  Returns the new state and the single emission broadcast. -/
def State.set (v : Option Int) (bypass : Bool) (_st : State) : State × Emis :=
  ({ cur := v, flag := bypass }, (v, bypass))

/-- The filter stage shared by `onSet`-style pipelines:
`filter(x => !isNullOrUndefined(x) && !this.bypassChangeDetection)` applied to
one emission; `some v` when the observer is invoked. -/
def onSetDeliver (e : Emis) : Option (Option Int) :=
  if !(isNullOrUndefined e.1) && !e.2 then some e.1 else none

/-- The `onSet` deliveries over an emission list: the filter alone, one entry per
emission. -/
def onSetDeliveries (es : List Emis) : List (Option (Option Int)) :=
  es.map onSetDeliver

/-- The `onChange` deliveries over an emission list:
`distinctUntilChanged()` (adjacent duplicates by `===` equality of the items,
the first emission always passes) followed by the non-null/flag filter.
`last` is the value held by `distinctUntilChanged` (none before the first
emission). -/
def onChangeDeliveries (last : Option (Option Int)) :
    List Emis → List (Option (Option Int))
  | [] => []
  | e :: rest =>
    if last = some e.1 then
      none :: onChangeDeliveries last rest
    else
      onSetDeliver e :: onChangeDeliveries (some e.1) rest

/-- Deliveries to an `onSet` subscriber made at construction time of
`new State(initialValue?)`: the replay of the initial value followed by the
emissions of the subsequent `set` calls (each `set(v, b)` emits `(v, b)`). -/
def onSetRun (initialValue : Option Int) (ops : List Emis) :
    List (Option (Option Int)) :=
  onSetDeliveries ((initialValue, false) :: ops)

/-- Deliveries to an `onChange` subscriber made at construction time. -/
def onChangeRun (initialValue : Option Int) (ops : List Emis) :
    List (Option (Option Int)) :=
  onChangeDeliveries none ((initialValue, false) :: ops)

/-- The value `distinctUntilChanged` holds after consuming an emission list. -/
def dedupLast (last : Option (Option Int)) : List Emis → Option (Option Int)
  | [] => last
  | e :: rest => dedupLast (some e.1) rest

theorem onChangeDeliveries_append (es es' : List Emis)
    (last : Option (Option Int)) :
    onChangeDeliveries last (es ++ es') =
      onChangeDeliveries last es ++
        onChangeDeliveries (dedupLast last es) es' := by
  induction es generalizing last with
  | nil => rfl
  | cons e rest ih =>
    simp only [List.cons_append, onChangeDeliveries, dedupLast]
    by_cases h : last = some e.1
    · simp [h, ih]
    · simp [h, ih]

theorem dedupLast_snoc (es : List Emis) (e : Emis)
    (last : Option (Option Int)) :
    dedupLast last (es ++ [e]) = some e.1 := by
  induction es generalizing last with
  | nil => rfl
  | cons f rest ih => simpa [dedupLast] using ih _

end StateM

namespace ArrM

/-- The `ArrayState<T>` container (element type `Int`).  `ref` is the
identity of the array object currently held by the subject, `arr` its
contents, `fresh` the next unused object identity, `flag` the shared
`bypassChangeDetection` flag. -/
structure ArrayState where
  ref : Nat
  arr : List Int
  fresh : Nat
  flag : Bool
deriving DecidableEq, Repr

/-- An emission of the subject: identity and contents of the array object
passed to `next`, plus the flag at delivery time. -/
structure Emis where
  ref : Nat
  arr : List Int
  flag : Bool
deriving DecidableEq, Repr

/-- Constructor `new ArrayState(initialValue?)`: the subject starts at
`initialValue ?? []` — a (fresh) array object, identity 0. -/
def ArrayState.init (initialValue : Option (List Int)) : ArrayState :=
  { ref := 0, arr := initialValue.getD [], fresh := 1, flag := false }

/-- The body of `ArrayState.set` applied to an array object with identity
`r`: store the flag, `next` the object. -/
def ArrayState.setCore (r : Nat) (l : List Int) (bypass : Bool)
    (st : ArrayState) : ArrayState × Emis :=
  ({ st with ref := r, arr := l, flag := bypass }, ⟨r, l, bypass⟩)

/-- Method `ArrayState.set(value, bypassChangeDetection = false)` called from the
outside with a freshly built array object. -/
def ArrayState.set (l : List Int) (bypass : Bool) (st : ArrayState) :
    ArrayState × Emis :=
  ArrayState.setCore st.fresh l bypass { st with fresh := st.fresh + 1 }

/-- Method `ArrayState.add(value, unique?, bypassChangeDetection = false)`:
sets the flag, reads `newSet = this.value` (an alias of the current array
object), and when `(isUnique && !newSet.includes(value)) || !isUnique`
pushes onto that same object and calls `this.set(newSet)` — which resets
the flag to `false` (the `set` default) and `next`s the *same* object.
Returns the emissions broadcast (none in the unique-duplicate no-op case). -/
def ArrayState.add (v : Int) (unique : Option Bool) (bypass : Bool)
    (st : ArrayState) : ArrayState × List Emis :=
  let st := { st with flag := bypass }
  let isUnique := unique.getD true
  if (isUnique && !(st.arr.contains v)) || !isUnique then
    let p := ArrayState.setCore st.ref (st.arr ++ [v]) false st
    (p.1, [p.2])
  else
    (st, [])

/-- Method `ArrayState.remove(value, bypassChangeDetection = false)`: sets the
flag, then `this.set(newSet.filter(x => x !== value))` — `filter` builds a
fresh array object and the inner `set` resets the flag to `false`. -/
def ArrayState.remove (v : Int) (bypass : Bool) (st : ArrayState) :
    ArrayState × Emis :=
  let st := { st with flag := bypass }
  ArrayState.set (st.arr.filter (fun x => x != v)) false st

/-- The mutators of `ArrayState` used while a subscription is active. -/
inductive ArrOp where
  | add : Int → Option Bool → Bool → ArrOp
  | set : List Int → Bool → ArrOp
  | remove : Int → Bool → ArrOp
deriving DecidableEq, Repr

/-- One mutator call: next state and emissions broadcast. -/
def ArrayState.step (st : ArrayState) : ArrOp → ArrayState × List Emis
  | .add v u b => ArrayState.add v u b st
  | .set l b => let p := ArrayState.set l b st; (p.1, [p.2])
  | .remove v b => let p := ArrayState.remove v b st; (p.1, [p.2])

/-- The `onSet` filter of `ArrayState`:
`filter(x => !isNullOrUndefined(x) && !this.bypassChangeDetection)` — an
array object is never null, so only the flag matters. -/
def onSetDeliver (e : Emis) : Option Emis :=
  if !e.flag then some e else none

/-- One emission through the `onChange` pipeline of `ArrayState`:
`distinctUntilChanged()` compares array objects with `===`, i.e. by
identity `ref`; then the non-null/flag filter.  Returns the new held
identity and the delivery. -/
def onChangeEmis (last : Option Nat) (e : Emis) :
    Option Nat × Option Emis :=
  if last = some e.ref then
    (last, none)
  else
    (some e.ref, onSetDeliver e)

/-- A list of emissions through the `onChange` pipeline. -/
def onChangeEmissions (last : Option Nat) :
    List Emis → Option Nat × List (Option Emis)
  | [] => (last, [])
  | e :: rest =>
    let p := onChangeEmis last e
    let q := onChangeEmissions p.1 rest
    (q.1, p.2 :: q.2)

/-- Run a list of mutators from state `st` against an active `onChange`
subscription whose `distinctUntilChanged` holds `last`; per mutator call,
the list of deliveries its emissions caused. -/
def onChangeSteps (last : Option Nat) (st : ArrayState) :
    List ArrOp → List (List (Option Emis))
  | [] => []
  | op :: ops =>
    let p := ArrayState.step st op
    let q := onChangeEmissions last p.2
    q.2 :: onChangeSteps q.1 p.1 ops

/-- Deliveries caused per mutator call to an `onChange` subscriber that
subscribed at state `st`: the replay emission `(st.ref, st.arr, st.flag)`
seeds `distinctUntilChanged` with `st.ref`. -/
def onChangeRun (st : ArrayState) (ops : List ArrOp) :
    List (List (Option Emis)) :=
  onChangeSteps (some st.ref) st ops

/-- The delivery caused by the replay emission an `onSet` subscriber
receives at subscription time at state `st`. -/
def onSetReplay (st : ArrayState) : Option Emis :=
  onSetDeliver ⟨st.ref, st.arr, st.flag⟩

end ArrM

/-- The fixed `_keySeparator` of the map containers. -/
def keySeparator : String := "####"

/-- Join `keys.join(this._keySeparator)` on string key parts. -/
def joinKeys (keys : List String) : String :=
  String.intercalate keySeparator keys

/-- JavaScript object assignment `record[key] = value` on a key-ordered
record: replace the value at an existing key in place, otherwise append the
new entry. -/
def recordAssign {α : Type} (k : String) (v : α) :
    List (String × α) → List (String × α)
  | [] => [(k, v)]
  | (k', v') :: rest =>
    if k' = k then (k, v) :: rest else (k', v') :: recordAssign k v rest

/-- JavaScript `delete record[key]`. -/
def recordDelete {α : Type} (k : String) (r : List (String × α)) :
    List (String × α) :=
  r.filter (fun kv => kv.1 != k)

/-- JavaScript `record[key]` (`undefined` when absent). -/
def recordGet {α : Type} (k : String) (r : List (String × α)) : Option α :=
  (r.find? (fun kv => kv.1 == k)).map (·.2)

/-- JavaScript `key in record` (the exact-match branch of `hasKey`). -/
def recordHasKey {α : Type} (k : String) (r : List (String × α)) : Bool :=
  r.any (fun kv => kv.1 == k)

namespace KVM

/-- The `KeyValueState<KEY, VALUE>` container (string keys, `Int` values):
the record held by the subject and the shared `bypassChangeDetection`
flag.  The claims settled on this container concern record contents only,
so object identities are not tracked here. -/
structure KeyValueState where
  record : List (String × Int)
  flag : Bool
deriving DecidableEq, Repr

/-- Constructor `new KeyValueState(initialValue?)`: subject starts at
`initialValue ?? {}`. -/
def KeyValueState.init (initialValue : Option (List (String × Int))) :
    KeyValueState :=
  { record := initialValue.getD [], flag := false }

/-- Accessor `KeyValueState.value` / `getValue(key)`. -/
def KeyValueState.getValue (k : String) (st : KeyValueState) : Option Int :=
  recordGet k st.record

/-- Method `getValueByKeys(...keys)`: look up the composite key
`keys.map(String).join(this._keySeparator)`. -/
def KeyValueState.getValueByKeys (keys : List String) (st : KeyValueState) :
    Option Int :=
  recordGet (joinKeys keys) st.record

/-- Method `KeyValueState.setValue(key, value, bypassChangeDetection = false)`:
store the flag, build `{...this.value}` with the one entry changed, `next`
it.  Returns the new state and the emitted record. -/
def KeyValueState.setValue (k : String) (v : Int) (bypass : Bool)
    (st : KeyValueState) : KeyValueState × List (String × Int) :=
  let newSet := recordAssign k v st.record
  ({ record := newSet, flag := bypass }, newSet)

/-- Method `setValueByKeys(value, bypassChangeDetection = false, ...keys)`:
delegate to `setValue` on the joined composite key. -/
def KeyValueState.setValueByKeys (v : Int) (bypass : Bool)
    (keys : List String) (st : KeyValueState) :
    KeyValueState × List (String × Int) :=
  KeyValueState.setValue (joinKeys keys) v bypass st

/-- Method `KeyValueState.unset(key, bypassChangeDetection = false)`: store the
flag, `delete` the entry from the current record, `next` it. -/
def KeyValueState.unset (k : String) (bypass : Bool) (st : KeyValueState) :
    KeyValueState × List (String × Int) :=
  let newSet := recordDelete k st.record
  ({ record := newSet, flag := bypass }, newSet)

/-- Method `KeyValueState.set(record, bypassChangeDetection = false)`. -/
def KeyValueState.set (r : List (String × Int)) (bypass : Bool)
    (_st : KeyValueState) : KeyValueState × List (String × Int) :=
  ({ record := r, flag := bypass }, r)

/-- The `hasKey(key, exactMatch = true)` pipeline on a list of emitted
records: `map(record => key in record)` then `distinctUntilChanged()`
(no null/flag filter in this pipeline).  One delivery slot per emission. -/
def hasKeyDeliveries (k : String) (last : Option Bool) :
    List (List (String × Int)) → List (Option Bool)
  | [] => []
  | r :: rest =>
    let b := recordHasKey k r
    if last = some b then
      none :: hasKeyDeliveries k last rest
    else
      some b :: hasKeyDeliveries k (some b) rest

/-- The §8 scenario: subscribe `hasKey(k)` (exact) at state `st`, then
`setValue(k, v)`, then `unset(k)`.  Deliveries per emission, the replay of
the current record included as the first entry. -/
def hasKeyScenario (k : String) (v : Int) (st : KeyValueState) :
    List (Option Bool) :=
  let p1 := KeyValueState.setValue k v false st
  let p2 := KeyValueState.unset k false p1.1
  hasKeyDeliveries k none [st.record, p1.2, p2.2]

end KVM

namespace KVLM

/-- The `KeyValuesState<KEY, VALUE>` container (string keys, `Int` list
values), with object identity of the mapping: `ref` is the identity of the
record object currently held by the subject, `entries` its contents,
`fresh` the next unused identity, `flag` the shared
`bypassChangeDetection` flag. -/
structure KeyValuesState where
  ref : Nat
  entries : List (String × List Int)
  fresh : Nat
  flag : Bool
deriving DecidableEq, Repr

/-- An emission of the subject: identity and contents of the record object
passed to `next`, plus the flag at delivery time. -/
structure Emis where
  ref : Nat
  entries : List (String × List Int)
  flag : Bool
deriving DecidableEq, Repr

/-- Constructor `new KeyValuesState(initialValue?)`: subject starts at
`initialValue ?? {}`, a record object with identity 0. -/
def KeyValuesState.init (initialValue : Option (List (String × List Int))) :
    KeyValuesState :=
  { ref := 0, entries := initialValue.getD [], fresh := 1, flag := false }

/-- Method `KeyValuesState.getValue(key)`. -/
def KeyValuesState.getValue (k : String) (st : KeyValuesState) :
    Option (List Int) :=
  recordGet k st.entries

/-- Method `KeyValuesState.setValue(key, value, bypassChangeDetection = false)`:
store the flag, `const newSet = this.value` — an *alias* of the current
record object, not a copy — assign `newSet[key] = value` in place, `next`
that same object. -/
def KeyValuesState.setValue (k : String) (l : List Int) (bypass : Bool)
    (st : KeyValuesState) : KeyValuesState × Emis :=
  let newEntries := recordAssign k l st.entries
  ({ st with entries := newEntries, flag := bypass },
    ⟨st.ref, newEntries, bypass⟩)

/-- Method `KeyValuesState.addToValue(key, value, unique?, bypass = false)`:
store the flag; when `isUnique && currentValue?.includes(value)` return
without broadcasting; otherwise `setValue(key, [...getValue(key) || [],
value])` — a fresh per-key array, but `setValue` mutates the mapping
object in place (the inner `setValue` call uses its default `bypass =
false`). -/
def KeyValuesState.addToValue (k : String) (v : Int) (unique : Option Bool)
    (bypass : Bool) (st : KeyValuesState) : KeyValuesState × List Emis :=
  let st := { st with flag := bypass }
  let isUnique := unique.getD true
  let currentValue := st.getValue k
  if isUnique && (currentValue.getD []).contains v then
    (st, [])
  else
    let p := KeyValuesState.setValue k ((currentValue.getD []) ++ [v]) false st
    (p.1, [p.2])

/-- The body of `KeyValuesState.set` applied to a record object with
identity `r`: store the flag, `next` the object. -/
def KeyValuesState.setCore (r : Nat) (es : List (String × List Int))
    (bypass : Bool) (st : KeyValuesState) : KeyValuesState × Emis :=
  ({ st with ref := r, entries := es, flag := bypass }, ⟨r, es, bypass⟩)

/-- Method `KeyValuesState.set(record, bypassChangeDetection = false)` called from
the outside with a freshly built record object. -/
def KeyValuesState.set (es : List (String × List Int)) (bypass : Bool)
    (st : KeyValuesState) : KeyValuesState × Emis :=
  KeyValuesState.setCore st.fresh es bypass { st with fresh := st.fresh + 1 }

/-- Method `KeyValuesState.removeFromValue(key, value, bypass = false)`: store the
flag; when `this.value[key] === undefined` return without broadcasting;
otherwise `const newSet = this.value` (alias), replace the per-key list by
`newSet[key].filter(x => x !== value)` in place, and `this.set(newSet)` —
the *same* record object, with the inner `set` defaulting the flag to
`false`. -/
def KeyValuesState.removeFromValue (k : String) (v : Int) (bypass : Bool)
    (st : KeyValuesState) : KeyValuesState × List Emis :=
  let st := { st with flag := bypass }
  match recordGet k st.entries with
  | none => (st, [])
  | some cur =>
    let newEntries := recordAssign k (cur.filter (fun x => x != v)) st.entries
    let p := KeyValuesState.setCore st.ref newEntries false st
    (p.1, [p.2])

end KVLM

/-- A JSON-like array element: either a non-array value or a nested
array, mirroring the untyped `any[]` that `countArrayElements` receives. -/
inductive JVal where
  | atom : Int → JVal
  | arr : List JVal → JVal

/-- Helper `countArrayElements` from `type.helper`:
`arr.reduce((count, item) => count + (Array.isArray(item) ?
countArrayElements(item) : 1), 0)`. -/
def countArrayElements : List JVal → Nat
  | [] => 0
  | JVal.atom _ :: rest => 1 + countArrayElements rest
  | JVal.arr xs :: rest => countArrayElements xs + countArrayElements rest

/-- Accessor `KeyValuesState.toArray` (`Object.values(this.value)`) on a record
whose per-key values are (possibly nested) lists. -/
def kvlToArray (r : List (String × List JVal)) : List (List JVal) :=
  r.map (·.2)

/-- Accessor `KeyValuesState.length`: `countArrayElements(this.toArray)` — the
argument is the list of per-key value lists, each of which is itself an
array for `Array.isArray`. -/
def kvlLength (r : List (String × List JVal)) : Nat :=
  countArrayElements ((kvlToArray r).map JVal.arr)

/-- Claim C1: for every container, immediately after `set(v)` the synchronous
`value` accessor returns exactly `v`, and the value broadcast by that `set`
is the same `v` (read-after-write consistency; for the identity-tracked
containers the broadcast object is the one the container now holds). -/
theorem c1_read_after_write :
    (∀ (st : StateM.State) (v : Option Int) (b : Bool),
      (StateM.State.set v b st).1.cur = v ∧ (StateM.State.set v b st).2.1 = v)
    ∧ (∀ (st : ArrM.ArrayState) (l : List Int) (b : Bool),
      (ArrM.ArrayState.set l b st).1.arr = l
      ∧ (ArrM.ArrayState.set l b st).2.arr = l
      ∧ (ArrM.ArrayState.set l b st).2.ref = (ArrM.ArrayState.set l b st).1.ref)
    ∧ (∀ (st : KVM.KeyValueState) (r : List (String × Int)) (b : Bool),
      (KVM.KeyValueState.set r b st).1.record = r
      ∧ (KVM.KeyValueState.set r b st).2 = r)
    ∧ (∀ (st : KVLM.KeyValuesState) (es : List (String × List Int)) (b : Bool),
      (KVLM.KeyValuesState.set es b st).1.entries = es
      ∧ (KVLM.KeyValuesState.set es b st).2.entries = es
      ∧ (KVLM.KeyValuesState.set es b st).2.ref =
          (KVLM.KeyValuesState.set es b st).1.ref) :=
  ⟨fun _ _ _ => ⟨rfl, rfl⟩,
   fun _ _ _ => ⟨rfl, rfl, rfl⟩,
   fun _ _ _ => ⟨rfl, rfl⟩,
   fun _ _ _ => ⟨rfl, rfl, rfl⟩⟩

/-- Claim C2: on a `State` constructed with no initial value, with an
`onChange` subscription made at construction time, the deliveries are:
nothing at subscription, nothing for `set(null)`, `5` for `set(5)`, nothing
for the repeated `set(5)`, `6` for `set(6)`. -/
theorem c2_onchange_scenario :
    StateM.onChangeRun none
      [(none, false), (some 5, false), (some 5, false), (some 6, false)] =
      [none, none, some (some 5), none, some (some 6)] := by
  decide

/-- Claim C3: after any prior history, two consecutive `set` calls with the
same non-null value deliver nothing to `onChange` at the second call, while
`onSet` delivers the value at both calls (subscriptions made at
construction). -/
theorem c3_duplicate_set :
    ∀ (iv : Option Int) (prior : List StateM.Emis) (v : Int),
      StateM.onChangeRun iv (prior ++ [(some v, false), (some v, false)]) =
        StateM.onChangeRun iv (prior ++ [(some v, false)]) ++ [none]
      ∧ StateM.onSetRun iv (prior ++ [(some v, false), (some v, false)]) =
        StateM.onSetRun iv (prior ++ [(some v, false)]) ++ [some (some v)]
      ∧ StateM.onSetRun iv (prior ++ [(some v, false)]) =
        StateM.onSetRun iv prior ++ [some (some v)] := by
  intro iv prior v
  refine ⟨?_, ?_, ?_⟩
  · have hsplit : prior ++ [((some v : Option Int), false), (some v, false)] =
        (prior ++ [((some v : Option Int), false)]) ++ [(some v, false)] := by
      simp
    rw [StateM.onChangeRun, hsplit,
      show ((iv, false) :: ((prior ++ [((some v : Option Int), false)]) ++
          [(some v, false)])) =
        (((iv, false) :: (prior ++ [((some v : Option Int), false)])) ++
          [(some v, false)]) from rfl,
      StateM.onChangeDeliveries_append,
      show ((iv, false) :: (prior ++ [((some v : Option Int), false)])) =
        (((iv, false) :: prior) ++ [((some v : Option Int), false)]) from rfl,
      StateM.dedupLast_snoc]
    simp [StateM.onChangeDeliveries, StateM.onChangeRun]
  · simp [StateM.onSetRun, StateM.onSetDeliveries, StateM.onSetDeliver,
      isNullOrUndefined]
  · simp [StateM.onSetRun, StateM.onSetDeliveries, StateM.onSetDeliver,
      isNullOrUndefined]

/-- Claim C5: on every `ArrayState`, `add(v, unique = true)` is idempotent on
the stored list (a second identical call is a no-op), while
`add(v, unique = false)` is not (it appends a duplicate). -/
theorem c5_add_unique_idempotent :
    ∀ (st : ArrM.ArrayState) (v : Int),
      (ArrM.ArrayState.add v (some true) false
          (ArrM.ArrayState.add v (some true) false st).1).1.arr =
        (ArrM.ArrayState.add v (some true) false st).1.arr
      ∧ (ArrM.ArrayState.add v (some false) false
          (ArrM.ArrayState.add v (some false) false st).1).1.arr ≠
        (ArrM.ArrayState.add v (some false) false st).1.arr := by
  intro st v
  constructor
  · by_cases h : v ∈ st.arr
    · simp [ArrM.ArrayState.add, ArrM.ArrayState.setCore, h]
    · simp [ArrM.ArrayState.add, ArrM.ArrayState.setCore, h]
  · simp only [ArrM.ArrayState.add, ArrM.ArrayState.setCore, Option.getD]
    intro h
    have hlen := congrArg List.length h
    simp at hlen

theorem recordGet_recordAssign {α : Type} (k : String) (v : α)
    (r : List (String × α)) :
    recordGet k (recordAssign k v r) = some v := by
  induction r with
  | nil => simp [recordAssign, recordGet]
  | cons kv rest ih =>
    obtain ⟨k', v'⟩ := kv
    by_cases h : k' = k
    · simp [recordAssign, recordGet, h]
    · have hb : (k' == k) = false := by simp [h]
      simp only [recordAssign, if_neg h]
      simpa [recordGet, List.find?, hb] using ih

theorem recordHasKey_recordAssign {α : Type} (k : String) (v : α)
    (r : List (String × α)) :
    recordHasKey k (recordAssign k v r) = true := by
  induction r with
  | nil => simp [recordAssign, recordHasKey]
  | cons kv rest ih =>
    by_cases h : kv.1 = k
    · simp [recordAssign, recordHasKey, h]
    · simp [recordAssign, recordHasKey, h] at ih ⊢
      exact ih

theorem recordHasKey_recordDelete {α : Type} (k : String)
    (r : List (String × α)) :
    recordHasKey k (recordDelete k r) = false := by
  simp only [recordHasKey, recordDelete, List.any_eq_false]
  intro kv hkv
  rcases List.mem_filter.mp hkv with ⟨-, hne⟩
  simp only [bne_iff_ne, ne_eq] at hne
  simp [hne]

/-- Claim C4 counterexample: on the `KeyValuesState` holding the record
object (identity 0) `{k: [1]}`, `addToValue("k", 2)` broadcasts an emission
whose object identity is still 0 — the mutated current mapping object, not
a newly built one; so it is not the case that every broadcast object of the
call differs from the pre-call mapping object. -/
theorem c4_counterexample :
    (KVLM.KeyValuesState.addToValue "k" 2 none false
        ⟨0, [("k", [1])], 1, false⟩).2 = [⟨0, [("k", [1, 2])], false⟩]
    ∧ ¬ (∀ e ∈ (KVLM.KeyValuesState.addToValue "k" 2 none false
        ⟨0, [("k", [1])], 1, false⟩).2, e.ref ≠ 0) := by
  decide

/-- Claim C4 (amended): `addToValue` and `removeFromValue` do *not* copy the
mapping: every emission they broadcast carries the identity of the mapping
object that was current before the call (mutated in place), and the
container still holds that same object afterwards. -/
theorem c4_in_place_broadcast :
    ∀ (st : KVLM.KeyValuesState) (k : String) (v : Int) (u : Option Bool)
      (b : Bool),
      (KVLM.KeyValuesState.addToValue k v u b st).2.all
        (fun e => e.ref == st.ref) = true
      ∧ (KVLM.KeyValuesState.removeFromValue k v b st).2.all
        (fun e => e.ref == st.ref) = true
      ∧ (KVLM.KeyValuesState.addToValue k v u b st).1.ref = st.ref
      ∧ (KVLM.KeyValuesState.removeFromValue k v b st).1.ref = st.ref := by
  intro st k v u b
  refine ⟨?_, ?_, ?_, ?_⟩ <;>
    simp only [KVLM.KeyValuesState.addToValue, KVLM.KeyValuesState.removeFromValue,
      KVLM.KeyValuesState.setValue, KVLM.KeyValuesState.setCore,
      KVLM.KeyValuesState.getValue] <;>
    (try split) <;> simp

/-- Claim C6: on every `KeyValueState`, `setValueByKeys(v, false, "a", "b")`
followed by `getValueByKeys("a", "b")` returns `v`, and the composite-key
write is exactly `setValue("a####b", v)` — the parts are joined with the
fixed separator `####`. -/
theorem c6_composite_key :
    ∀ (v : Int) (st : KVM.KeyValueState),
      KVM.KeyValueState.getValueByKeys ["a", "b"]
        (KVM.KeyValueState.setValueByKeys v false ["a", "b"] st).1 = some v
      ∧ KVM.KeyValueState.setValueByKeys v false ["a", "b"] st =
          KVM.KeyValueState.setValue "a####b" v false st := by
  intro v st
  constructor
  · simp [KVM.KeyValueState.getValueByKeys, KVM.KeyValueState.setValueByKeys,
      KVM.KeyValueState.setValue, recordGet_recordAssign]
  · rw [KVM.KeyValueState.setValueByKeys,
      show joinKeys ["a", "b"] = "a####b" from by decide]

/-- Claim C7: the `length` of a `KeyValuesState` is the total element count
across the value lists of all keys, counting recursively into nested lists:
`{k1: [1,2], k2: [3]}` has length 3 (not the key count 2), `{k1: [[1,2],3]}`
also has length 3, and in general `length` is the sum over all keys of the
recursive element count of the list at that key. -/
theorem c7_length_recursive_count :
    kvlLength [("k1", [JVal.atom 1, JVal.atom 2]), ("k2", [JVal.atom 3])] = 3
    ∧ kvlLength [("k1", [JVal.arr [JVal.atom 1, JVal.atom 2], JVal.atom 3])] = 3
    ∧ kvlLength [("k1", [JVal.atom 1, JVal.atom 2]), ("k2", [JVal.atom 3])] ≠
        ([("k1", [JVal.atom 1, JVal.atom 2]), ("k2", [JVal.atom 3])] :
          List (String × List JVal)).length
    ∧ ∀ (r : List (String × List JVal)),
        kvlLength r = (r.map (fun kv => countArrayElements kv.2)).sum := by
  refine ⟨by simp [kvlLength, kvlToArray, countArrayElements],
    by simp [kvlLength, kvlToArray, countArrayElements],
    by simp [kvlLength, kvlToArray, countArrayElements], ?_⟩
  intro r
  induction r with
  | nil => simp [kvlLength, kvlToArray, countArrayElements]
  | cons kv rest ih =>
    simp only [kvlLength, kvlToArray, List.map_cons, countArrayElements,
      List.map_map] at ih ⊢
    simp [ih]

/-- Claim C8 counterexample: on a `KeyValueState` that already holds `k`
(initial record `{k: 0}`), the `hasKey(k)` (exact) stream emits `true`
already at subscription time; `setValue(k, 1)` then delivers *nothing*
(adjacent duplicate `true`), so the post-subscription deliveries are
`[nothing, false]`, not `[true, false]` as the claim states for every
`KeyValueState`. -/
theorem c8_counterexample :
    KVM.hasKeyScenario "k" 1 (KVM.KeyValueState.init (some [("k", 0)])) =
      [some true, none, some false]
    ∧ (KVM.hasKeyScenario "k" 1
        (KVM.KeyValueState.init (some [("k", 0)]))).tail ≠
      [some true, some false] := by
  decide

/-- Claim C8 (amended): when `k` is absent at subscription time, the
`hasKey(k)` (exact) stream first emits `false` at subscription, then
`setValue(k, v)` delivers `true` and `unset(k)` delivers `false`, in that
order. -/
theorem c8_haskey_true_then_false :
    ∀ (k : String) (v : Int) (st : KVM.KeyValueState),
      recordHasKey k st.record = false →
      KVM.hasKeyScenario k v st = [some false, some true, some false] := by
  intro k v st h
  simp [KVM.hasKeyScenario, KVM.KeyValueState.setValue, KVM.KeyValueState.unset,
    KVM.hasKeyDeliveries, h, recordHasKey_recordAssign,
    recordHasKey_recordDelete]

theorem c8_haskey_true_then_false_witness :
    recordHasKey "k" (KVM.KeyValueState.init none).record = false
    ∧ KVM.hasKeyScenario "k" 1 (KVM.KeyValueState.init none) =
      [some false, some true, some false] :=
  ⟨by decide, c8_haskey_true_then_false "k" 1 (KVM.KeyValueState.init none)
    (by decide)⟩

/-- Claim C9 counterexample: an `ArrayState` constructed with no initial
value starts at the empty array `[]`, which is *not* null, so the `onSet`
filter passes it: an `onSet` subscriber at construction time is invoked
immediately with `[]`, before any `set` call. -/
theorem c9_counterexample :
    ArrM.onSetReplay (ArrM.ArrayState.init none) = some ⟨0, [], false⟩
    ∧ ArrM.onSetReplay (ArrM.ArrayState.init none) ≠ none := by
  decide

/-- Claim C9 (amended): for the single-value container `State` constructed
without an initial value, the sentinel `null` is treated as absent by the
non-null filters, so an `onSet` or `onChange` subscriber made at
construction receives nothing until the first explicit `set` call (the
replay of the sentinel delivers nothing). -/
theorem c9_state_sentinel_filtered :
    StateM.onSetRun none [] = [none] ∧ StateM.onChangeRun none [] = [none] := by
  decide

namespace ArrM

theorem onChangeEmissions_step_last (st : ArrayState) (op : ArrOp) :
    (onChangeEmissions (some st.ref) (ArrayState.step st op).2).1 =
      some (ArrayState.step st op).1.ref := by
  cases op with
  | add v u b =>
    simp only [ArrayState.step, ArrayState.add, ArrayState.setCore]
    split
    · simp [onChangeEmissions, onChangeEmis]
    · simp [onChangeEmissions]
  | set l b =>
    by_cases h : st.ref = st.fresh
    · simp [ArrayState.step, ArrayState.set, ArrayState.setCore,
        onChangeEmissions, onChangeEmis, h]
    · simp [ArrayState.step, ArrayState.set, ArrayState.setCore,
        onChangeEmissions, onChangeEmis, h]
  | remove v b =>
    by_cases h : st.ref = st.fresh
    · simp [ArrayState.step, ArrayState.remove, ArrayState.set,
        ArrayState.setCore, onChangeEmissions, onChangeEmis, h]
    · simp [ArrayState.step, ArrayState.remove, ArrayState.set,
        ArrayState.setCore, onChangeEmissions, onChangeEmis, h]

theorem onChangeSteps_add_all_none :
    ∀ (ops : List ArrOp) (st : ArrayState) (i : Nat) (v : Int)
      (u : Option Bool) (b : Bool),
      ops.get? i = some (ArrOp.add v u b) →
      ((onChangeSteps (some st.ref) st ops).getD i []).all
        (fun d => d.isNone) = true := by
  intro ops
  induction ops with
  | nil => intro st i v u b h; simp at h
  | cons op rest ih =>
    intro st i v u b h
    cases i with
    | zero =>
      simp only [List.get?] at h
      injection h with h
      subst h
      simp only [onChangeSteps, ArrayState.step, ArrayState.add,
        ArrayState.setCore]
      split
      · simp [onChangeEmissions, onChangeEmis]
      · simp [onChangeEmissions]
    | succ j =>
      simp only [List.get?] at h
      simp only [onChangeSteps, List.getD, List.get?]
      rw [onChangeEmissions_step_last st op]
      exact ih (ArrayState.step st op).1 j v u b h

end ArrM

/-- Claim C10: against any `ArrayState` with an active `onChange`
subscription (made at the current state `st`, so the replay seeds the
duplicate filter with the current array object), no `add` call in any
subsequent sequence of mutators ever causes an `onChange` delivery: `add`
pushes onto the current array object and broadcasts that same object, which
the `===`-based adjacent-duplicate elimination removes.  A non-duplicate
`add(v)` does broadcast the same object (identity `st.ref`) with the
appended contents, and an `onSet`-style subscription delivers it. -/
theorem c10_add_invisible_to_onchange :
    (∀ (st : ArrM.ArrayState) (ops : List ArrM.ArrOp) (i : Nat) (v : Int)
        (u : Option Bool) (b : Bool),
      ops.get? i = some (ArrM.ArrOp.add v u b) →
      ((ArrM.onChangeRun st ops).getD i []).all (fun d => d.isNone) = true)
    ∧ (∀ (st : ArrM.ArrayState) (v : Int),
      st.arr.contains v = false →
      (ArrM.ArrayState.add v none false st).2 = [⟨st.ref, st.arr ++ [v], false⟩]
      ∧ (ArrM.ArrayState.add v none false st).2.map ArrM.onSetDeliver =
        [some ⟨st.ref, st.arr ++ [v], false⟩]) := by
  constructor
  · intro st ops i v u b h
    exact ArrM.onChangeSteps_add_all_none ops st i v u b h
  · intro st v h
    rw [show (st.arr.contains v = false) ↔ v ∉ st.arr from by simp] at h
    constructor <;>
      simp [ArrM.ArrayState.add, ArrM.ArrayState.setCore, ArrM.onSetDeliver, h]

theorem c10_add_invisible_to_onchange_witness :
    (([ArrM.ArrOp.add 5 none false] : List ArrM.ArrOp).get? 0 =
        some (ArrM.ArrOp.add 5 none false)
      ∧ ((ArrM.onChangeRun (ArrM.ArrayState.init none)
          [ArrM.ArrOp.add 5 none false]).getD 0 []).all
        (fun d => d.isNone) = true)
    ∧ ((ArrM.ArrayState.init none).arr.contains 5 = false
      ∧ (ArrM.ArrayState.add 5 none false (ArrM.ArrayState.init none)).2 =
        [⟨0, [5], false⟩]) :=
  ⟨⟨by decide,
    c10_add_invisible_to_onchange.1 (ArrM.ArrayState.init none)
      [ArrM.ArrOp.add 5 none false] 0 5 none false (by decide)⟩,
   ⟨by decide,
    (c10_add_invisible_to_onchange.2 (ArrM.ArrayState.init none) 5
      (by decide)).1⟩⟩
